import Mathlib

/-!
Shallow embedding of the core of `polymarket_tracker.py`: the bettor profile
store, the whale-sighting ledger, the alert ledger, the sharpness classifier,
and the alert selection/dispatch pipeline.

Conventions of the embedding:
* currency amounts (pnl, volume, positions value, roi) are rationals `ℚ`
  (the source compares Python floats exactly; the claims only involve exact
  comparisons at values representable in both);
* timestamps are integers (`Int`), measured in seconds; `timedelta(hours=h)`
  becomes `h * 3600`;
* SQLite tables become lists of row structures; a `PRIMARY KEY`/`UNIQUE`
  constraint with `INSERT OR REPLACE` is modelled as delete-all-matching then
  cons, and `INSERT OR IGNORE` as insert-only-if-no-match, both faithful to
  SQLite semantics on arbitrary list states;
* `SELECT ... WHERE key = ?` followed by `fetchone()` becomes `List.find?`;
* a Python function with no `return` statement returns `none : Option Bool`
  (Python `None`); a function returning a boolean returns `some b`-free `Bool`.
-/

/-- Row of the `bettors` table (`CREATE TABLE bettors` in
`DatabaseManager.init_database`).  The `first_seen DEFAULT CURRENT_TIMESTAMP`
column is never read by any of the operations modelled here and is omitted. -/
structure BettorRow where
  wallet_address : String
  username : Option String
  total_pnl : ℚ
  total_volume : ℚ
  markets_traded : Nat
  positions_value : ℚ
  roi : ℚ
  last_updated : Int
  is_sharp : Bool
  leaderboard_rank : Option Nat
  deriving Repr, DecidableEq

/-- Row of the `whale_sightings` table, after the `ALTER TABLE` migration in
`record_whale_sighting` that adds the `side` and `market_question` columns. -/
structure SightingRow where
  wallet_address : String
  market_url : String
  market_category : String
  side : String
  market_question : Option String
  first_seen : Int
  last_seen : Int
  deriving Repr, DecidableEq

/-- Row of the `alerts_sent` table.  The `id INTEGER PRIMARY KEY AUTOINCREMENT`
column is modelled by the position in the list and is not read anywhere. -/
structure AlertRow where
  wallet_address : String
  market_url : String
  alert_timestamp : Int
  deriving Repr, DecidableEq

/-- The SQLite database managed by `DatabaseManager`: three tables. -/
structure Db where
  bettors : List BettorRow
  sightings : List SightingRow
  alerts : List AlertRow
  deriving Repr, DecidableEq

def emptyDb : Db := ⟨[], [], []⟩

/-- The configurable sharpness thresholds (`MIN_PNL_SHARP`, `MIN_ROI_SHARP`,
`MIN_VOLUME_SHARP`, read from the environment at module load). -/
structure Config where
  minPnlSharp : ℚ
  minRoiSharp : ℚ
  minVolumeSharp : ℚ
  deriving Repr, DecidableEq

/-- The defaults hard-coded in the source: `'10000'`, `'10'`, `'50000'`. -/
def defaultConfig : Config := ⟨10000, 10, 50000⟩

/-- The `BettorProfile` dataclass. -/
structure BettorProfile where
  wallet_address : String
  username : Option String
  total_pnl : ℚ
  total_volume : ℚ
  markets_traded : Nat
  positions_value : ℚ
  roi : ℚ
  last_updated : Int
  leaderboard_rank : Option Nat
  deriving Repr, DecidableEq

/-- The ROI computation in `PolymarketScraper.get_user_profile_data`:
`roi = 0; if volume > 0: roi = (pnl / volume) * 100`. -/
def computeRoi (pnl volume : ℚ) : ℚ :=
  if 0 < volume then pnl / volume * 100 else 0

/-- The `BettorProfile` value constructed at the end of
`get_user_profile_data` from the already-parsed numeric fields: its `roi`
field is `computeRoi` of the scraped pnl and volume. -/
def scrapedProfile (wallet : String) (username : Option String)
    (pnl volume positions : ℚ) (markets : Nat) (now : Int)
    (rank : Option Nat) : BettorProfile :=
  ⟨wallet, username, pnl, volume, markets, positions,
    computeRoi pnl volume, now, rank⟩

/-- The sharpness predicate computed inside `DatabaseManager.update_bettor`:
`total_pnl > MIN_PNL_SHARP and roi > MIN_ROI_SHARP and
total_volume > MIN_VOLUME_SHARP`. -/
def isSharpCheck (cfg : Config) (p : BettorProfile) : Bool :=
  decide (cfg.minPnlSharp < p.total_pnl) &&
  decide (cfg.minRoiSharp < p.roi) &&
  decide (cfg.minVolumeSharp < p.total_volume)

/-- `SELECT ... FROM bettors WHERE wallet_address = ?` + `fetchone()`. -/
def findBettor (db : Db) (w : String) : Option BettorRow :=
  db.bettors.find? (fun b => b.wallet_address == w)

/-- `DatabaseManager.update_bettor`: computes `is_sharp` from the profile and
performs `INSERT OR REPLACE INTO bettors`, writing every profile field plus
the derived verdict.  `roi` is written exactly as carried by the profile. -/
def update_bettor (cfg : Config) (db : Db) (p : BettorProfile) : Db :=
  let row : BettorRow :=
    ⟨p.wallet_address, p.username, p.total_pnl, p.total_volume,
      p.markets_traded, p.positions_value, p.roi, p.last_updated,
      isSharpCheck cfg p, p.leaderboard_rank⟩
  { db with bettors :=
      row :: db.bettors.filter (fun b => !(b.wallet_address == p.wallet_address)) }

/-- `DatabaseManager.needs_update`: `SELECT last_updated FROM bettors WHERE
wallet_address = ?`; absent row gives `True`, otherwise
`datetime.utcnow() - last_updated > timedelta(hours=hours)`. -/
def needs_update (db : Db) (w : String) (now : Int) (hours : Int) : Bool :=
  match findBettor db w with
  | none => true
  | some b => decide (hours * 3600 < now - b.last_updated)

/-- `needs_update` with the source's default argument `hours: int = 6`. -/
def needs_update_default (db : Db) (w : String) (now : Int) : Bool :=
  needs_update db w now 6

/-- `DatabaseManager.get_all_tracked_wallets`: `SELECT wallet_address FROM
bettors WHERE total_volume > 10000 OR leaderboard_rank IS NOT NULL OR
is_sharp = 1` (the volume floor `10000` is a literal in the SQL). -/
def get_all_tracked_wallets (db : Db) : List String :=
  (db.bettors.filter (fun b =>
    decide (10000 < b.total_volume) || b.leaderboard_rank.isSome ||
      b.is_sharp)).map (fun b => b.wallet_address)

/-- Modelled from the spec (section 4.1): `tracked_wallets(min_volume)` returns
sharp wallets ∪ wallets with `total_volume > min_volume` ∪ wallets with a
non-null `leaderboard_rank`.  Unlike the source function, the volume floor is
a parameter.  Used only to compare the spec's parametrised description with
`get_all_tracked_wallets`. -/
def trackedWalletsSpec (db : Db) (minVolume : ℚ) : List String :=
  (db.bettors.filter (fun b =>
    b.is_sharp || decide (minVolume < b.total_volume) ||
      b.leaderboard_rank.isSome)).map (fun b => b.wallet_address)

/-- The composite key predicate used by the sightings and alerts tables:
`wallet_address = ? AND market_url = ?`. -/
def keyMatch (w m : String) (ww mm : String) : Bool :=
  ww == w && mm == m

/-- One call to `record_whale_sighting`, bundling the mutable arguments and
the wall-clock time (`datetime.utcnow()`) at which the call runs. -/
structure SightingCall where
  category : String
  side : String
  question : Option String
  time : Int
  deriving Repr, DecidableEq

/-- `DatabaseManager.record_whale_sighting`: `INSERT OR REPLACE INTO
whale_sightings` where `first_seen` is
`COALESCE((SELECT first_seen FROM whale_sightings WHERE wallet_address = ?
AND market_url = ?), now)` and `last_seen` is `now`.  `INSERT OR REPLACE`
on the composite primary key deletes any row with the same
(wallet, market) key and inserts the new one. -/
def record_whale_sighting (db : Db) (w m : String) (c : SightingCall) : Db :=
  let prior := db.sightings.find? (fun r => keyMatch w m r.wallet_address r.market_url)
  let fs : Int :=
    match prior with
    | some r => r.first_seen
    | none => c.time
  let newRow : SightingRow := ⟨w, m, c.category, c.side, c.question, fs, c.time⟩
  let kept := db.sightings.filter
    (fun r => !(keyMatch w m r.wallet_address r.market_url))
  { db with sightings := newRow :: kept }

/-- A sequence of `record_whale_sighting` calls on the same (wallet, market)
key, applied in order. -/
def applySightings (db : Db) (w m : String) (calls : List SightingCall) : Db :=
  calls.foldl (fun d c => record_whale_sighting d w m c) db

/-- The `EXISTS (SELECT 1 FROM alerts_sent WHERE wallet_address = ? AND
market_url = ?)` test, also the conflict test of `INSERT OR IGNORE INTO
alerts_sent`. -/
def alertExists (db : Db) (w m : String) : Bool :=
  db.alerts.any (fun a => keyMatch w m a.wallet_address a.market_url)

/-- The set of (wallet, market) pairs present in the `alerts_sent` table. -/
def alertedPairs (db : Db) : List (String × String) :=
  db.alerts.map (fun a => (a.wallet_address, a.market_url))

/-- `DatabaseManager.mark_alert_sent`: `INSERT OR IGNORE INTO alerts_sent`.
The Python function body ends without a `return` statement, so every call
returns `None`; the second component of the result models that returned
value (`none` = Python `None`, `some b` would be a returned boolean). -/
def mark_alert_sent (db : Db) (w m : String) (now : Int) : Db × Option Bool :=
  if alertExists db w m then
    (db, none)
  else
    ({ db with alerts := db.alerts ++ [⟨w, m, now⟩] }, none)

/-- One row of the list of dicts returned by `get_new_sharp_positions`
(the twelve selected columns; `timestamp` is `ws.first_seen`). -/
structure PositionAlert where
  wallet_address : String
  market_url : String
  market_category : String
  side : String
  market_question : Option String
  username : Option String
  total_pnl : ℚ
  roi : ℚ
  positions_value : ℚ
  total_volume : ℚ
  timestamp : Int
  leaderboard_rank : Option Nat
  deriving Repr, DecidableEq

/-- The projection of one joined (sighting, bettor) row pair onto the selected
columns of `get_new_sharp_positions`. -/
def projectAlert (ws : SightingRow) (b : BettorRow) : PositionAlert :=
  ⟨ws.wallet_address, ws.market_url, ws.market_category, ws.side,
    ws.market_question, b.username, b.total_pnl, b.roi, b.positions_value,
    b.total_volume, ws.first_seen, b.leaderboard_rank⟩

/-- The `ORDER BY ws.first_seen DESC` ordering of `get_new_sharp_positions`:
earlier rows have later (or equal) `first_seen`. -/
def byFirstSeenDesc (p q : PositionAlert) : Prop :=
  q.timestamp ≤ p.timestamp

instance : DecidableRel byFirstSeenDesc :=
  fun p q => inferInstanceAs (Decidable (q.timestamp ≤ p.timestamp))

instance : IsTotal PositionAlert byFirstSeenDesc :=
  ⟨fun a b => le_total b.timestamp a.timestamp⟩

instance : IsTrans PositionAlert byFirstSeenDesc :=
  ⟨fun _ _ _ h1 h2 => le_trans h2 h1⟩

/-- `DatabaseManager.get_new_sharp_positions(hours)`: `SELECT DISTINCT ...
FROM whale_sightings ws JOIN bettors b ON ws.wallet_address =
b.wallet_address WHERE b.is_sharp = 1 AND ws.first_seen > cutoff AND
b.positions_value >= MIN_BET_ALERT AND NOT EXISTS (... alerts_sent ...)
ORDER BY ws.first_seen DESC`, with `cutoff = utcnow() - timedelta(hours)`.
The join is each sighting row paired with each bettor row of the same
wallet; `DISTINCT` is `dedup` on the projected rows and `ORDER BY` is a
sort by descending `first_seen`. -/
def get_new_sharp_positions (db : Db) (now : Int) (hours : Int)
    (minBetAlert : ℚ) : List PositionAlert :=
  let cutoff := now - hours * 3600
  let rows := db.sightings.flatMap (fun ws =>
    (db.bettors.filter (fun b =>
      b.wallet_address == ws.wallet_address &&
      b.is_sharp &&
      decide (cutoff < ws.first_seen) &&
      decide (minBetAlert ≤ b.positions_value) &&
      !(alertExists db ws.wallet_address ws.market_url))).map
        (projectAlert ws))
  List.insertionSort byFirstSeenDesc rows.dedup

/-- The dispatch loop of `PolymarketTracker.check_for_alerts`: for each
selected position, call `twitter_bot.post_alert(position)`; when it returns
`True`, `mark_alert_sent`; otherwise leave the ledger untouched and move on
to the next position.  `notify` is the external notifier outcome per
candidate (`post_alert`'s boolean). -/
def dispatchAlerts (notify : PositionAlert → Bool) (db : Db)
    (positions : List PositionAlert) (now : Int) : Db :=
  positions.foldl
    (fun d p =>
      if notify p then (mark_alert_sent d p.wallet_address p.market_url now).1
      else d)
    db

/-- `TwitterBot.post_alert`: formats the message, then if `TWITTER_ENABLED`
calls `api.update_status` and returns `True`, any exception being caught and
turned into `False`; if `TWITTER_ENABLED` is false it skips the API call and
returns `True`.  `apiOk` is whether the external `update_status` call would
succeed.  The first component records whether the external call was made,
the second the boolean return value. -/
def post_alert (twitterEnabled : Bool) (apiOk : Bool)
    (_p : PositionAlert) : Bool × Bool :=
  if twitterEnabled then (true, apiOk) else (false, true)

/-! Concrete values used by witnesses and counterexamples. -/

/-- A profile meeting all three default sharpness gates
(pnl 15000, roi 12, volume 60000). -/
def profileSharpEx : BettorProfile :=
  ⟨"0xaa", none, 15000, 60000, 10, 0, 12, 0, none⟩

/-- The same profile with volume 40000, below the default 50000 floor. -/
def profileNotSharpEx : BettorProfile :=
  ⟨"0xbb", none, 15000, 40000, 10, 0, 12, 0, none⟩

/-- A profile whose `roi` field (999) disagrees with
`total_pnl / total_volume * 100 = 100`. -/
def profileBadRoi : BettorProfile :=
  ⟨"0xcc", none, 100, 100, 1, 0, 999, 0, none⟩

/-! Helper lemmas shared by several theorems below. -/

/-- After `update_bettor`, looking up the profile's wallet finds exactly the
row just written. -/
theorem update_bettor_find (cfg : Config) (db : Db) (p : BettorProfile) :
    findBettor (update_bettor cfg db p) p.wallet_address =
      some ⟨p.wallet_address, p.username, p.total_pnl, p.total_volume,
        p.markets_traded, p.positions_value, p.roi, p.last_updated,
        isSharpCheck cfg p, p.leaderboard_rank⟩ := by
  simp [findBettor, update_bettor]

/-- C7: the ROI produced by the profile scrape is `pnl / volume * 100` when
volume is positive and `0` when volume is zero, so the division in the ROI
computation is only ever taken at a nonzero divisor. -/
theorem roi_division_guard (wallet : String) (username : Option String)
    (pnl volume positions : ℚ) (markets : Nat) (now : Int)
    (rank : Option Nat) :
    (volume = 0 →
      (scrapedProfile wallet username pnl volume positions markets now rank).roi = 0) ∧
    (0 < volume →
      (scrapedProfile wallet username pnl volume positions markets now rank).roi =
        pnl / volume * 100) := by
  constructor
  · intro h
    simp [scrapedProfile, computeRoi, h]
  · intro h
    simp [scrapedProfile, computeRoi, h]

/-- Witness for `roi_division_guard` at volume 0 and volume 200. -/
theorem roi_division_guard_witness :
    (scrapedProfile "0xw" none 50 0 0 0 0 none).roi = 0 ∧
    (scrapedProfile "0xw" none 50 200 0 0 0 none).roi = 50 / 200 * 100 :=
  ⟨(roi_division_guard "0xw" none 50 0 0 0 0 none).1 rfl,
   (roi_division_guard "0xw" none 50 200 0 0 0 none).2 (by norm_num)⟩

/-- C4: the persisted `is_sharp` verdict written by `update_bettor` is true
iff `total_pnl > MIN_PNL_SHARP`, `roi > MIN_ROI_SHARP` and
`total_volume > MIN_VOLUME_SHARP` all hold strictly; under the default
thresholds the profile (pnl 15000, roi 12, volume 60000) is classified
sharp and (pnl 15000, roi 12, volume 40000) is not. -/
theorem update_bettor_sharp_iff :
    (∀ (cfg : Config) (db : Db) (p : BettorProfile), ∃ row,
      findBettor (update_bettor cfg db p) p.wallet_address = some row ∧
      (row.is_sharp = true ↔
        cfg.minPnlSharp < p.total_pnl ∧ cfg.minRoiSharp < p.roi ∧
          cfg.minVolumeSharp < p.total_volume)) ∧
    (findBettor (update_bettor defaultConfig emptyDb profileSharpEx)
        "0xaa").map (fun r => r.is_sharp) = some true ∧
    (findBettor (update_bettor defaultConfig emptyDb profileNotSharpEx)
        "0xbb").map (fun r => r.is_sharp) = some false := by
  refine ⟨fun cfg db p => ⟨_, update_bettor_find cfg db p, ?_⟩, ?_, ?_⟩
  · simp [isSharpCheck, and_assoc]
  · decide
  · decide

/-- C5 counterexample: `update_bettor` does not recompute `roi` at write
time; persisting a profile whose `roi` field is 999 while pnl 100 and
volume 100 stores roi 999, which differs from the stored
`pnl / volume * 100 = 100`. -/
theorem update_bettor_roi_not_recomputed :
    (findBettor (update_bettor defaultConfig emptyDb profileBadRoi)
        "0xcc").map (fun r => r.roi) = some 999 ∧
    (999 : ℚ) ≠ 100 / 100 * 100 := by
  constructor
  · decide
  · norm_num

/-- C5 amended: `update_bettor` persists the supplied `roi`, `total_pnl` and
`total_volume` fields unchanged; consequently the stored roi satisfies
`roi = pnl / volume * 100` (0 at volume 0) exactly when the supplied
profile's roi already did — which is the case for profiles built by
`get_user_profile_data`, where roi is computed as `computeRoi`. -/
theorem update_bettor_roi_passthrough (cfg : Config) (db : Db)
    (p : BettorProfile) :
    ∃ row, findBettor (update_bettor cfg db p) p.wallet_address = some row ∧
      row.roi = p.roi ∧ row.total_pnl = p.total_pnl ∧
      row.total_volume = p.total_volume ∧
      (p.roi = computeRoi p.total_pnl p.total_volume →
        row.roi = computeRoi row.total_pnl row.total_volume) :=
  ⟨_, update_bettor_find cfg db p, rfl, rfl, rfl, fun h => h⟩

/-- Witness for `update_bettor_roi_passthrough` on a scraper-built profile. -/
theorem update_bettor_roi_passthrough_witness :
    ∃ row, findBettor
        (update_bettor defaultConfig emptyDb
          (scrapedProfile "0xdd" none 50 200 0 0 0 none)) "0xdd" = some row ∧
      row.roi = computeRoi 50 200 := by
  obtain ⟨row, hfind, hroi, hpnl, hvol, himp⟩ :=
    update_bettor_roi_passthrough defaultConfig emptyDb
      (scrapedProfile "0xdd" none 50 200 0 0 0 none)
  exact ⟨row, hfind, (himp rfl).trans (by rw [hpnl, hvol]; rfl)⟩

/-- C8: `needs_update` returns true iff the wallet is absent from the
`bettors` table or `now - last_updated` strictly exceeds the maximum age,
and the default maximum age is 6 hours. -/
theorem needs_update_iff (db : Db) (w : String) (now hours : Int) :
    (needs_update db w now hours = true ↔
      findBettor db w = none ∨
        ∃ b, findBettor db w = some b ∧
          hours * 3600 < now - b.last_updated) ∧
    needs_update_default db w now = needs_update db w now 6 := by
  refine ⟨?_, rfl⟩
  unfold needs_update
  cases h : findBettor db w with
  | none => simp
  | some b => simp [h]

/-- A bettor with volume 15000, not sharp, no leaderboard rank: tracked by
the source's hard-coded 10000 floor, but not under a floor of 20000. -/
def lowVolumeBettor : BettorRow :=
  ⟨"0xaa11", none, 0, 15000, 0, 0, 0, 0, false, none⟩

def lowVolumeDb : Db := ⟨[lowVolumeBettor], [], []⟩

/-- C9 counterexample: `get_all_tracked_wallets` takes no `min_volume`
parameter — its volume floor is the literal 10000 in the SQL — so for
`min_volume = 20000` it disagrees with the spec's parametrised
`tracked_wallets(min_volume)`: a non-sharp, unranked wallet with volume
15000 is returned by the code but excluded by the spec description. -/
theorem tracked_wallets_no_min_volume_param :
    "0xaa11" ∈ get_all_tracked_wallets lowVolumeDb ∧
    "0xaa11" ∉ trackedWalletsSpec lowVolumeDb 20000 := by
  decide

/-- C9 amended: `get_all_tracked_wallets` equals the spec's
`tracked_wallets(min_volume)` at the fixed floor `min_volume = 10000`: it
returns exactly the wallets that are sharp, or have `total_volume > 10000`,
or have a non-null `leaderboard_rank`. -/
theorem tracked_wallets_fixed_floor (db : Db) :
    get_all_tracked_wallets db = trackedWalletsSpec db 10000 ∧
    ∀ w, w ∈ get_all_tracked_wallets db ↔
      ∃ b ∈ db.bettors, b.wallet_address = w ∧
        (b.is_sharp = true ∨ 10000 < b.total_volume ∨
          b.leaderboard_rank ≠ none) := by
  constructor
  · unfold get_all_tracked_wallets trackedWalletsSpec
    congr 1
    apply List.filter_congr
    intro b _
    cases hs : b.is_sharp <;>
      cases hr : b.leaderboard_rank.isSome <;>
      cases hv : decide (10000 < b.total_volume) <;>
      simp [hs, hr, hv]
  · intro w
    simp only [get_all_tracked_wallets, List.mem_map, List.mem_filter,
      Bool.or_eq_true, decide_eq_true_eq, Option.isSome_iff_ne_none]
    constructor
    · rintro ⟨b, ⟨hb, hcond⟩, rfl⟩
      exact ⟨b, hb, rfl, by tauto⟩
    · rintro ⟨b, hb, rfl, hcond⟩
      exact ⟨b, ⟨hb, by tauto⟩, rfl⟩

/-- C2 counterexample: `mark_alert_sent` performs the insert (the ledger
grows to one record) but has no `return` statement, so the call returns
Python `None` rather than a boolean reporting that the insert happened. -/
theorem mark_alert_sent_returns_none :
    (mark_alert_sent emptyDb "0xw" "m1" 0).2 = none ∧
    (mark_alert_sent emptyDb "0xw" "m1" 0).1.alerts.length = 1 := by
  decide

/-- C2 amended: `mark_alert_sent` is an insert-if-absent — called twice for
the same key it leaves exactly one matching AlertRecord and the second call
leaves the ledger unchanged — but both calls return `None` (no boolean), so
the caller cannot observe whether the insert happened. -/
theorem mark_alert_sent_insert_if_absent (db : Db) (w m : String)
    (t1 t2 : Int) (h : alertExists db w m = false) :
    ((mark_alert_sent db w m t1).1.alerts.filter
        (fun a => keyMatch w m a.wallet_address a.market_url)).length = 1 ∧
    (mark_alert_sent (mark_alert_sent db w m t1).1 w m t2).1 =
      (mark_alert_sent db w m t1).1 ∧
    (mark_alert_sent db w m t1).2 = none ∧
    (mark_alert_sent (mark_alert_sent db w m t1).1 w m t2).2 = none := by
  have hall : ∀ a ∈ db.alerts,
      keyMatch w m a.wallet_address a.market_url = false := by
    intro a ha
    have := (List.any_eq_false).mp (by simpa [alertExists] using h) a ha
    simpa using this
  have hfilter : db.alerts.filter
      (fun a => keyMatch w m a.wallet_address a.market_url) = [] := by
    rw [List.filter_eq_nil_iff]
    intro a ha
    simp [hall a ha]
  have hself : keyMatch w m w m = true := by simp [keyMatch]
  have h1 : (mark_alert_sent db w m t1).1.alerts =
      db.alerts ++ [⟨w, m, t1⟩] := by
    simp [mark_alert_sent, h]
  have h2 : alertExists (mark_alert_sent db w m t1).1 w m = true := by
    simp [alertExists, h1, List.any_append, hself]
  have hstop : ∀ (d : Db) (t : Int), alertExists d w m = true →
      mark_alert_sent d w m t = (d, none) := by
    intro d t hd
    simp [mark_alert_sent, hd]
  refine ⟨?_, ?_, ?_, ?_⟩
  · rw [h1, List.filter_append, hfilter]
    simp [hself]
  · rw [hstop _ t2 h2]
  · simp [mark_alert_sent, h]
  · rw [hstop _ t2 h2]

/-- Witness for `mark_alert_sent_insert_if_absent` on the empty ledger. -/
theorem mark_alert_sent_insert_if_absent_witness :
    ((mark_alert_sent emptyDb "0xw" "m1" 5).1.alerts.filter
        (fun a => keyMatch "0xw" "m1" a.wallet_address a.market_url)).length = 1 ∧
    (mark_alert_sent (mark_alert_sent emptyDb "0xw" "m1" 5).1 "0xw" "m1" 7).1 =
      (mark_alert_sent emptyDb "0xw" "m1" 5).1 ∧
    (mark_alert_sent emptyDb "0xw" "m1" 5).2 = none ∧
    (mark_alert_sent (mark_alert_sent emptyDb "0xw" "m1" 5).1 "0xw" "m1" 7).2 = none :=
  mark_alert_sent_insert_if_absent emptyDb "0xw" "m1" 5 7 (by decide)

/-- The alert-ledger existence check agrees with membership of the pair in
the ledger's key set. -/
theorem alertExists_iff (d : Db) (w m : String) :
    alertExists d w m = true ↔ (w, m) ∈ alertedPairs d := by
  simp only [alertExists, alertedPairs, keyMatch, List.any_eq_true,
    List.mem_map, Bool.and_eq_true, beq_iff_eq]
  constructor
  · rintro ⟨a, ha, h1, h2⟩
    exact ⟨a, ha, by rw [h1, h2]⟩
  · rintro ⟨a, ha, h⟩
    obtain ⟨h1, h2⟩ := Prod.mk.injEq .. ▸ h
    exact ⟨a, ha, h1, h2⟩

/-- The alert-ledger existence check is false exactly when the pair is
absent from the ledger. -/
theorem alertExists_eq_false_iff (d : Db) (w m : String) :
    alertExists d w m = false ↔ (w, m) ∉ alertedPairs d := by
  rw [← alertExists_iff, Bool.not_eq_true, Bool.eq_false_iff, ne_eq]

/-- Membership of a pair in the alert ledger after `mark_alert_sent`. -/
theorem mark_alert_sent_mem (d : Db) (w m w' m' : String) (t : Int) :
    (w', m') ∈ alertedPairs (mark_alert_sent d w m t).1 ↔
      (w', m') ∈ alertedPairs d ∨ (w' = w ∧ m' = m) := by
  unfold mark_alert_sent
  by_cases h : alertExists d w m
  · simp only [h, if_true]
    constructor
    · exact Or.inl
    · rintro (hmem | ⟨rfl, rfl⟩)
      · exact hmem
      · exact (alertExists_iff d w' m').mp h
  · simp only [h]
    simp [alertedPairs]

/-- Membership of a pair in the alert ledger after the dispatch loop: a pair
is present afterwards iff it was present before or some candidate with that
key had a successful notifier call.  In particular a failed candidate is not
marked, and a failure does not prevent later candidates from being marked. -/
theorem dispatchAlerts_mem (notify : PositionAlert → Bool)
    (positions : List PositionAlert) (db : Db) (now : Int) (w m : String) :
    (w, m) ∈ alertedPairs (dispatchAlerts notify db positions now) ↔
      (w, m) ∈ alertedPairs db ∨
        ∃ p ∈ positions, notify p = true ∧
          p.wallet_address = w ∧ p.market_url = m := by
  induction positions generalizing db with
  | nil => simp [dispatchAlerts]
  | cons p rest ih =>
    have hstep : dispatchAlerts notify db (p :: rest) now =
        dispatchAlerts notify
          (if notify p then (mark_alert_sent db p.wallet_address p.market_url now).1
            else db) rest now := by
      simp [dispatchAlerts]
    rw [hstep]
    by_cases hn : notify p
    · rw [if_pos hn, ih, mark_alert_sent_mem]
      simp only [List.mem_cons]
      constructor
      · rintro ((hmem | ⟨rfl, rfl⟩) | ⟨q, hq, hok, hw, hm⟩)
        · exact Or.inl hmem
        · exact Or.inr ⟨p, Or.inl rfl, hn, rfl, rfl⟩
        · exact Or.inr ⟨q, Or.inr hq, hok, hw, hm⟩
      · rintro (hmem | ⟨q, hq | hq, hok, hw, hm⟩)
        · exact Or.inl (Or.inl hmem)
        · subst hq
          exact Or.inl (Or.inr ⟨hw.symm, hm.symm⟩)
        · exact Or.inr ⟨q, hq, hok, hw, hm⟩
    · rw [if_neg hn, ih]
      simp only [List.mem_cons]
      constructor
      · rintro (hmem | ⟨q, hq, hok, hw, hm⟩)
        · exact Or.inl hmem
        · exact Or.inr ⟨q, Or.inr hq, hok, hw, hm⟩
      · rintro (hmem | ⟨q, hq | hq, hok, hw, hm⟩)
        · exact Or.inl hmem
        · subst hq
          exact absurd hok (by simpa using hn)
        · exact Or.inr ⟨q, hq, hok, hw, hm⟩

/-- C6: in the dispatch stage of `check_for_alerts` a (wallet, market) pair
is recorded in the alert ledger exactly when it was already there or its
candidate's notifier call reported success; a candidate whose notifier call
fails is skipped — the resulting state is the one obtained by processing the
remaining candidates — so one failure never blocks the rest. -/
theorem check_for_alerts_dispatch (notify : PositionAlert → Bool) (db : Db)
    (positions : List PositionAlert) (now : Int) :
    (∀ w m, (w, m) ∈ alertedPairs (dispatchAlerts notify db positions now) ↔
      (w, m) ∈ alertedPairs db ∨
        ∃ p ∈ positions, notify p = true ∧
          p.wallet_address = w ∧ p.market_url = m) ∧
    (∀ (p : PositionAlert) (rest : List PositionAlert), notify p = false →
      dispatchAlerts notify db (p :: rest) now =
        dispatchAlerts notify db rest now) := by
  refine ⟨fun w m => dispatchAlerts_mem notify positions db now w m, ?_⟩
  intro p rest hp
  simp [dispatchAlerts, hp]

/-- A concrete selected candidate, used by witnesses. -/
def samplePosition : PositionAlert :=
  ⟨"0xaa", "m1", "MLB", "YES", some "q", none, 15000, 25, 6000, 60000, 100, none⟩

/-- Witness for `check_for_alerts_dispatch`: with an always-failing notifier
a candidate is skipped and, on the empty ledger, nothing gets marked. -/
theorem check_for_alerts_dispatch_witness :
    dispatchAlerts (fun _ => false) emptyDb [samplePosition] 0 =
      dispatchAlerts (fun _ => false) emptyDb [] 0 :=
  (check_for_alerts_dispatch (fun _ => false) emptyDb [samplePosition] 0).2
    samplePosition [] rfl

/-- C10: with `TWITTER_ENABLED` false, `post_alert` makes no external call
and still returns `True` for every candidate, so the dispatch loop of
`check_for_alerts` records every selected (wallet, market) pair in the alert
ledger without any dispatch having occurred. -/
theorem post_alert_disabled_marks_all (apiOk : Bool) (db : Db)
    (positions : List PositionAlert) (now : Int) :
    (∀ p, post_alert false apiOk p = (false, true)) ∧
    (∀ p ∈ positions,
      (p.wallet_address, p.market_url) ∈ alertedPairs
        (dispatchAlerts (fun q => (post_alert false apiOk q).2)
          db positions now)) := by
  refine ⟨fun p => rfl, fun p hp => ?_⟩
  rw [dispatchAlerts_mem]
  exact Or.inr ⟨p, hp, rfl, rfl, rfl⟩

/-- Witness for `post_alert_disabled_marks_all` on a single candidate. -/
theorem post_alert_disabled_marks_all_witness :
    ("0xaa", "m1") ∈ alertedPairs
      (dispatchAlerts (fun q => (post_alert false true q).2)
        emptyDb [samplePosition] 0) :=
  (post_alert_disabled_marks_all true emptyDb [samplePosition] 0).2
    samplePosition (by simp)

/-- If no element of a list satisfies a predicate, `find?` returns `none`. -/
theorem find?_eq_none_of_filter_eq_nil {α : Type} {p : α → Bool}
    {l : List α} (h : l.filter p = []) : l.find? p = none := by
  rw [List.find?_eq_none]
  intro a ha
  exact (List.filter_eq_nil_iff.mp h) a ha

/-- If filtering a list by a predicate yields a singleton, `find?` returns
that element. -/
theorem find?_eq_some_of_filter_eq_singleton {α : Type} {p : α → Bool}
    {l : List α} {r : α} (h : l.filter p = [r]) : l.find? p = some r := by
  induction l with
  | nil => simp at h
  | cons a t ih =>
    rw [List.filter_cons] at h
    by_cases hp : p a
    · rw [if_pos hp] at h
      obtain ⟨h1, h2⟩ := List.cons_eq_cons.mp h
      rw [List.find?_cons_of_pos _ hp, h1]
    · rw [if_neg hp] at h
      rw [List.find?_cons_of_neg _ hp]
      exact ih h

/-- The key predicate on sighting rows for a fixed (wallet, market) pair. -/
def sightingKey (w m : String) (r : SightingRow) : Bool :=
  keyMatch w m r.wallet_address r.market_url

/-- Recording a sighting for a key with no prior row creates exactly one row
for that key, with `first_seen = last_seen = now`. -/
theorem record_whale_sighting_fresh (db : Db) (w m : String)
    (c : SightingCall)
    (h : db.sightings.filter (sightingKey w m) = []) :
    (record_whale_sighting db w m c).sightings.filter (sightingKey w m) =
      [⟨w, m, c.category, c.side, c.question, c.time, c.time⟩] := by
  have hfind : db.sightings.find?
      (fun r => keyMatch w m r.wallet_address r.market_url) = none :=
    find?_eq_none_of_filter_eq_nil h
  have hself : sightingKey w m ⟨w, m, c.category, c.side, c.question, c.time, c.time⟩ = true := by
    simp [sightingKey, keyMatch]
  simp only [record_whale_sighting, hfind]
  rw [List.filter_cons, if_pos hself]
  congr 1
  rw [List.filter_eq_nil_iff]
  intro r hr
  have := (List.mem_filter.mp hr).2
  simp only [sightingKey]
  simpa using this

/-- Recording a sighting for a key whose unique prior row is `r` replaces it
by a single row keeping `r.first_seen` and taking every other mutable field
from the new call. -/
theorem record_whale_sighting_repeat (db : Db) (w m : String)
    (c : SightingCall) (r : SightingRow)
    (h : db.sightings.filter (sightingKey w m) = [r]) :
    (record_whale_sighting db w m c).sightings.filter (sightingKey w m) =
      [⟨w, m, c.category, c.side, c.question, r.first_seen, c.time⟩] := by
  have hfind : db.sightings.find?
      (fun x => keyMatch w m x.wallet_address x.market_url) = some r :=
    find?_eq_some_of_filter_eq_singleton h
  have hself : sightingKey w m
      ⟨w, m, c.category, c.side, c.question, r.first_seen, c.time⟩ = true := by
    simp [sightingKey, keyMatch]
  simp only [record_whale_sighting, hfind]
  rw [List.filter_cons, if_pos hself]
  congr 1
  rw [List.filter_eq_nil_iff]
  intro x hx
  have := (List.mem_filter.mp hx).2
  simp only [sightingKey]
  simpa using this

/-- Invariant of repeated `record_whale_sighting` calls on one key: starting
from a state whose unique row for the key has `first_seen = fs`, any further
sequence of calls leaves exactly one row for the key, still with
`first_seen = fs`, the other mutable fields coming from the last call (or
staying as they were when the sequence is empty). -/
theorem applySightings_filter (w m : String) :
    ∀ (calls : List SightingCall) (db : Db) (cat s : String)
      (q : Option String) (fs ls : Int),
      db.sightings.filter (sightingKey w m) = [⟨w, m, cat, s, q, fs, ls⟩] →
      (applySightings db w m calls).sightings.filter (sightingKey w m) =
        [⟨w, m, (calls.getLastD ⟨cat, s, q, ls⟩).category,
          (calls.getLastD ⟨cat, s, q, ls⟩).side,
          (calls.getLastD ⟨cat, s, q, ls⟩).question, fs,
          (calls.getLastD ⟨cat, s, q, ls⟩).time⟩] := by
  intro calls
  induction calls with
  | nil =>
    intro db cat s q fs ls h
    simpa [applySightings] using h
  | cons c rest ih =>
    intro db cat s q fs ls h
    have hstep : applySightings db w m (c :: rest) =
        applySightings (record_whale_sighting db w m c) w m rest := by
      simp [applySightings]
    have h1 := record_whale_sighting_repeat db w m c _ h
    rw [hstep, List.getLastD_cons]
    exact ih (record_whale_sighting db w m c)
      c.category c.side c.question fs c.time h1

/-- C3: for any nonempty sequence of `record_whale_sighting` calls on the
same (wallet, market) key starting from a state with no row for that key,
the ledger ends with exactly one row for the key whose `first_seen` is the
time of the first call — never rewritten by later calls — while `last_seen`,
`side`, `question` (and category) come from the last call. -/
theorem record_sighting_first_seen_immutable (db : Db) (w m : String)
    (c0 : SightingCall) (rest : List SightingCall)
    (h : db.sightings.filter (sightingKey w m) = []) :
    (applySightings db w m (c0 :: rest)).sightings.filter (sightingKey w m) =
      [⟨w, m, (rest.getLastD c0).category, (rest.getLastD c0).side,
        (rest.getLastD c0).question, c0.time, (rest.getLastD c0).time⟩] := by
  have h1 := record_whale_sighting_fresh db w m c0 h
  have h2 := applySightings_filter w m rest (record_whale_sighting db w m c0)
    c0.category c0.side c0.question c0.time c0.time h1
  have hstep : applySightings db w m (c0 :: rest) =
      applySightings (record_whale_sighting db w m c0) w m rest := by
    simp [applySightings]
  rw [hstep, h2]

/-- Witness for `record_sighting_first_seen_immutable`: two calls at times
10 then 20 with differing sides leave one row with `first_seen = 10`,
`last_seen = 20` and the second call's side and question. -/
theorem record_sighting_first_seen_immutable_witness :
    (applySightings emptyDb "0xaa" "m1"
        [⟨"MLB", "YES", some "q1", 10⟩, ⟨"MLB", "NO", some "q2", 20⟩]).sightings.filter
        (sightingKey "0xaa" "m1") =
      [⟨"0xaa", "m1", "MLB", "NO", some "q2", 10, 20⟩] :=
  record_sighting_first_seen_immutable emptyDb "0xaa" "m1"
    ⟨"MLB", "YES", some "q1", 10⟩ [⟨"MLB", "NO", some "q2", 20⟩] (by decide)

/-- C1: `get_new_sharp_positions` returns exactly the projections of the
(sighting, bettor) pairs joined on wallet address that pass all four
filters — `is_sharp`, `first_seen` strictly inside the recency window,
`positions_value` at least the minimum, and key absent from the alert
ledger; in particular no returned row's (wallet, market) pair is in the
alert ledger, and the result is ordered by `first_seen` descending. -/
theorem get_new_sharp_positions_spec (db : Db) (now hours : Int)
    (minBetAlert : ℚ) :
    (∀ p, p ∈ get_new_sharp_positions db now hours minBetAlert ↔
      ∃ ws ∈ db.sightings, ∃ b ∈ db.bettors,
        b.wallet_address = ws.wallet_address ∧
        b.is_sharp = true ∧
        now - hours * 3600 < ws.first_seen ∧
        minBetAlert ≤ b.positions_value ∧
        (ws.wallet_address, ws.market_url) ∉ alertedPairs db ∧
        p = projectAlert ws b) ∧
    (∀ p ∈ get_new_sharp_positions db now hours minBetAlert,
      (p.wallet_address, p.market_url) ∉ alertedPairs db) ∧
    (get_new_sharp_positions db now hours minBetAlert).Sorted byFirstSeenDesc := by
  have hmem : ∀ p, p ∈ get_new_sharp_positions db now hours minBetAlert ↔
      ∃ ws ∈ db.sightings, ∃ b ∈ db.bettors,
        b.wallet_address = ws.wallet_address ∧
        b.is_sharp = true ∧
        now - hours * 3600 < ws.first_seen ∧
        minBetAlert ≤ b.positions_value ∧
        (ws.wallet_address, ws.market_url) ∉ alertedPairs db ∧
        p = projectAlert ws b := by
    intro p
    unfold get_new_sharp_positions
    simp only [List.mem_insertionSort, List.mem_dedup, List.mem_flatMap,
      List.mem_map, List.mem_filter, Bool.and_eq_true, beq_iff_eq,
      decide_eq_true_eq, Bool.not_eq_true', alertExists_eq_false_iff,
      and_assoc]
    constructor
    · rintro ⟨ws, hws, b, hb, hwb, hsharp, hfs, hpv, hna, hp⟩
      exact ⟨ws, hws, b, hb, hwb, hsharp, hfs, hpv, hna, hp.symm⟩
    · rintro ⟨ws, hws, b, hb, hwb, hsharp, hfs, hpv, hna, hp⟩
      exact ⟨ws, hws, b, hb, hwb, hsharp, hfs, hpv, hna, hp.symm⟩
  refine ⟨hmem, ?_, ?_⟩
  · intro p hp
    obtain ⟨ws, _, b, _, _, _, _, _, hna, rfl⟩ := (hmem p).mp hp
    simpa [projectAlert] using hna
  · exact List.sorted_insertionSort byFirstSeenDesc _

/-- A sharp bettor row matching `samplePosition`'s wallet. -/
def sampleBettor : BettorRow :=
  ⟨"0xaa", none, 15000, 60000, 10, 6000, 25, 0, true, none⟩

/-- A sighting of that bettor in market `m1` at time 100. -/
def sampleSighting : SightingRow :=
  ⟨"0xaa", "m1", "MLB", "YES", some "q", 100, 100⟩

def sampleDb : Db := ⟨[sampleBettor], [sampleSighting], []⟩

/-- Witness for `get_new_sharp_positions_spec`: in a concrete state the
selected row's (wallet, market) pair is not in the alert ledger. -/
theorem get_new_sharp_positions_spec_witness :
    ((projectAlert sampleSighting sampleBettor).wallet_address,
      (projectAlert sampleSighting sampleBettor).market_url) ∉
        alertedPairs sampleDb :=
  (get_new_sharp_positions_spec sampleDb 200 1 5000).2.1
    (projectAlert sampleSighting sampleBettor) (by decide)
